import Mathlib

/-!
Verification development for the repository nbcollection, file
nbcollection/ci/generator/datatypes.py.

The Python code is shallowly embedded as executable Lean definitions.
Strings are modelled as Lean String values, with the internal character
work carried out on List Char; Python string primitives (split with
maxsplit, rsplit, strip, startswith, endswith, substring containment)
are reimplemented below with the exact Python semantics the code relies
on.  Python exceptions become an explicit PyError sum carried by Except.
Environment effects (the filesystem, the git library, temporary file
allocation) are passed in as parameters or reported as an explicit
trace of git operations.
-/

namespace NBC

/-- Membership test of a character in a list of characters. -/
def memChar (c : Char) : List Char → Bool
  | [] => false
  | x :: xs => x == c || memChar c xs

/-- Test that pat is a prefix of l; Python str.startswith. -/
def isPrefixList : List Char → List Char → Bool
  | [], _ => true
  | _ :: _, [] => false
  | x :: xs, y :: ys => x == y && isPrefixList xs ys

/-- Test that pat is a suffix of l; Python str.endswith. -/
def endsWithList (pat l : List Char) : Bool :=
  isPrefixList pat.reverse l.reverse

/-- Split at the first occurrence of the character c, dropping the
separator; models Python s.split(c, 1) when it returns two pieces,
and returns none when c does not occur. -/
def splitFirst (c : Char) : List Char → Option (List Char × List Char)
  | [] => none
  | x :: xs =>
    if x == c then some ([], xs)
    else
      match splitFirst c xs with
      | none => none
      | some (a, b) => some (x :: a, b)

/-- Split at the last occurrence of the character c, dropping the
separator; models Python s.rsplit(c, 1) when it returns two pieces. -/
def splitLast (c : Char) (l : List Char) : Option (List Char × List Char) :=
  match splitFirst c l.reverse with
  | none => none
  | some (a, b) => some (b.reverse, a.reverse)

/-- Split at the first occurrence of the substring pat, dropping it;
used to model multi-character separators and containment tests. -/
def splitFirstSub (pat : List Char) : List Char → Option (List Char × List Char)
  | [] => if pat.isEmpty then some ([], []) else none
  | x :: xs =>
    if isPrefixList pat (x :: xs) then some ([], (x :: xs).drop pat.length)
    else
      match splitFirstSub pat xs with
      | none => none
      | some (a, b) => some (x :: a, b)

/-- Split at the last occurrence of the substring pat, dropping it;
models Python s.rsplit(pat, 1) when it returns two pieces. -/
def splitLastSub (pat l : List Char) : Option (List Char × List Char) :=
  match splitFirstSub pat.reverse l.reverse with
  | none => none
  | some (a, b) => some (b.reverse, a.reverse)

/-- Substring containment; Python (pat in s). -/
def containsSub (pat l : List Char) : Bool :=
  (splitFirstSub pat l).isSome

/-- Strip every character belonging to cs from both ends of l; Python
s.strip(chars) with its character-class (not prefix) semantics. -/
def stripChars (cs : List Char) (l : List Char) : List Char :=
  ((l.dropWhile (fun c => memChar c cs)).reverse.dropWhile
    (fun c => memChar c cs)).reverse

/-- Python s.split(c, maxsplit): split at the first occurrences of c,
at most maxsplit times, keeping the remainder whole. -/
def pySplit (c : Char) : Nat → List Char → List (List Char)
  | 0, l => [l]
  | n + 1, l =>
    match splitFirst c l with
    | none => [l]
    | some (a, b) => a :: pySplit c n b

/-- First element of a list of pieces, defaulting to the empty piece;
models Python indexing with [0] on the never-empty result of split. -/
def headOrNil : List (List Char) → List Char
  | [] => []
  | x :: _ => x

/-- Python s.split(c) without maxsplit: split at every occurrence. -/
def pySplitAll (c : Char) : List Char → List (List Char)
  | [] => [[]]
  | x :: xs =>
    if x == c then [] :: pySplitAll c xs
    else
      match pySplitAll c xs with
      | [] => [[x]]
      | a :: rest => (x :: a) :: rest

/-- Result of the standard-library urlparse restricted to the fields
this program reads (scheme, netloc, path). -/
structure PyURL where
  scheme : List Char
  netloc : List Char
  path : List Char
deriving DecidableEq, Repr

/-- Model of Python urllib.parse.urlparse for the URL shapes this
program handles: a locator of the form scheme separated by the three
characters colon slash slash from a netloc that runs to the first
slash, followed by the path.  Locators with no such separator carry
everything in the path component, which matches urlparse on the
git-at shorthand strings the code also feeds through it. -/
def urlparse (l : List Char) : PyURL :=
  match splitFirstSub [':', '/', '/'] l with
  | none => ⟨[], [], l⟩
  | some (sch, rest) =>
    match splitFirst '/' rest with
    | none => ⟨sch, rest, []⟩
    | some (a, b) => ⟨sch, a, '/' :: b⟩

/-- RepoType from datatypes.py; GithubGIT is what the design documents
call the GithubSSH kind (it is selected for git-at-github locators). -/
inductive RepoType
  | Local
  | GithubGIT
  | GithubHTTPS
deriving DecidableEq, Repr

/-- URLType from datatypes.py. -/
inductive URLType
  | GithubRepoURL
  | GithubPullRequest
deriving DecidableEq, Repr

/-- Python value that is either an int or a str: Python does not
enforce the int annotation on URLParts.pull_request_number, so the
field is modelled with this sum to record what the code actually
stores there. -/
inductive PyVal
  | int (n : Int)
  | str (s : String)
deriving DecidableEq, Repr

/-- URLParts named tuple from datatypes.py. -/
structure URLParts where
  url_type : URLType
  org : String
  repo_name : String
  pull_request_number : PyVal
deriving DecidableEq, Repr

/-- RemoteScheme from datatypes.py. -/
inductive RemoteScheme
  | Git
  | Http
  | Https
deriving DecidableEq, Repr

/-- RemoteParts named tuple from datatypes.py. -/
structure RemoteParts where
  scheme : RemoteScheme
  netloc : String
  org : String
  name : String
deriving DecidableEq, Repr

/-- Python exceptions raised by the embedded code.  The three distinct
NotImplementedError raise sites inside the URL classifier are kept as
distinct constructors so the error kinds named by the design
(UnsupportedScheme, AmbiguousPullRequestPath, UnsupportedURLShape,
UnsupportedRepoType, UnrecognizedURLFormat) stay distinguishable. -/
inductive PyError
  | valueError (msg : String)
  | indexError (msg : String)
  | notImplementedAmbiguousPR (msg : String)
  | notImplementedShape
  | notImplementedRepoType (t : RepoType)
  | notImplementedScheme (s : String)
  | notImplementedURL (u : String)
  | invalidRepoPath (msg : String)
deriving DecidableEq, Repr

/-- Lookup of a RemoteScheme member by its string value; models the
comprehension over RemoteScheme member items in datatypes.py, whose
empty result raises NotImplementedError on the scheme. -/
def schemeOfString (s : List Char) : Except PyError RemoteScheme :=
  if s = "git".data then .ok RemoteScheme.Git
  else if s = "http".data then .ok RemoteScheme.Http
  else if s = "https".data then .ok RemoteScheme.Https
  else .error (.notImplementedScheme (String.mk s))

/-- Body of RemoteParts.ParseURLToRemoteParts from datatypes.py over
the character list of the url, line for line: the git-at branch
recovers the netloc between the first at-sign and the last colon,
takes the text after the last colon of the whole locator as the path,
strips one trailing dot-git, and splits org from repo name at the
first slash; the two http branches go through urlparse.  orig is the
original string, used only in the final NotImplementedError. -/
def parseRemote (l : List Char) (orig : String) : Except PyError RemoteParts :=
  if isPrefixList "git@".data l then
    match splitFirst '@' l with
    | none => .error (.indexError "list index out of range")
    | some (_, afterAt) =>
      let netloc : List Char :=
        match splitLast ':' afterAt with
        | none => afterAt
        | some (a, _) => a
      match splitLast ':' l with
      | none => .error (.indexError "list index out of range")
      | some (_, path0) =>
        let path := if endsWithList ".git".data path0 then path0.take (path0.length - 4) else path0
        match splitFirst '/' path with
        | none => .error (.valueError "not enough values to unpack (expected 2, got 1)")
        | some (org, repo_name) =>
          .ok ⟨RemoteScheme.Git, String.mk netloc, String.mk org, String.mk repo_name⟩
  else if isPrefixList "http".data l && endsWithList ".git".data l then
    let up := urlparse l
    match schemeOfString up.scheme with
    | .error e => .error e
    | .ok scheme =>
      let body : List Char :=
        match splitLastSub ".git".data up.path with
        | none => up.path
        | some (a, _) => a
      match pySplitAll '/' (stripChars ['/'] body) with
      | [org, repo_name] => .ok ⟨scheme, String.mk up.netloc, String.mk org, String.mk repo_name⟩
      | _ => .error (.valueError "values to unpack mismatch (expected 2)")
  else if isPrefixList "http".data l && containsSub "pull/".data l then
    let up := urlparse l
    match schemeOfString up.scheme with
    | .error e => .error e
    | .ok scheme =>
      match pySplit '/' 2 (stripChars ['/'] up.path) with
      | [org, repo_name, _rest] =>
        .ok ⟨scheme, String.mk up.netloc, String.mk org, String.mk repo_name⟩
      | _ => .error (.valueError "not enough values to unpack (expected 3)")
  else
    .error (.notImplementedURL orig)

/-- RemoteParts.ParseURLToRemoteParts from datatypes.py; the work is
done by parseRemote on the character list of the url. -/
def RemoteParts.ParseURLToRemoteParts (url : String) : Except PyError RemoteParts :=
  parseRemote url.data url

/-- GitConfigRemote named tuple from datatypes.py. -/
structure GitConfigRemote where
  name : String
  parts : RemoteParts
  fetch : String
deriving DecidableEq, Repr

/-- GitConfigRemote.is_match from datatypes.py: parse the url and
compare netloc, org and name; scheme is not compared.  Parse failures
propagate. -/
def GitConfigRemote.is_match (self : GitConfigRemote) (url : String) : Except PyError Bool :=
  match RemoteParts.ParseURLToRemoteParts url with
  | .error e => .error e
  | .ok o =>
    .ok (o.netloc == self.parts.netloc && o.org == self.parts.org && o.name == self.parts.name)

/-- Dispatch of select_url_type from datatypes.py over the pieces of
the stripped path.  The try and except around the three-way unpack is
modelled by matching on the length of the list that Python split with
maxsplit 2 produces: three pieces take the first branch, two pieces
take the fallback with rest set to none, and one piece makes the
fallback unpack itself raise an uncaught ValueError.  The pull branch
stores the extracted piece as a string, exactly as the code passes
pr_num through without an int conversion. -/
def classify_url_path (parts : List (List Char)) : Except PyError URLParts :=
  match parts with
    | [org, repo_name, rest] =>
      if isPrefixList "pull".data rest then
        let pr_num := headOrNil (pySplit '/' 1 (stripChars "pull/".data rest))
        if memChar '/' pr_num then
          .error (.notImplementedAmbiguousPR
            (String.mk ("Unable to parse pr_num[".data ++ pr_num ++ "]".data)))
        else
          .ok ⟨URLType.GithubPullRequest, String.mk org, String.mk repo_name,
            PyVal.str (String.mk pr_num)⟩
      else
        .error .notImplementedShape
    | [org, repo_name] =>
      .ok ⟨URLType.GithubRepoURL, String.mk org, String.mk repo_name, PyVal.int 0⟩
    | _ => .error (.valueError "not enough values to unpack (expected 2, got 1)")

/-- select_url_type from datatypes.py: only the two github types are
supported; the url path is parsed with urlparse, stripped of outer
slashes, split at the first two slashes, and dispatched by
classify_url_path. -/
def select_url_type (url : String) (repo_type : RepoType) : Except PyError URLParts :=
  match repo_type with
  | RepoType.GithubGIT | RepoType.GithubHTTPS =>
    classify_url_path (pySplit '/' 2 (stripChars ['/'] (urlparse url.data).path))
  | t => .error (.notImplementedRepoType t)

/-- Modelled from the spec: the module nbcollection.ci.constants is not
among the sources; the design fixes the default remote name consumed by
the session release phase as origin. -/
def DEFAULT_REMOTE : String := "origin"

/-- Modelled from the spec: the module nbcollection.ci.constants is not
among the sources; the design fixes the default branch name consumed by
the session release phase as main. -/
def DEFAULT_BRANCH : String := "main"

/-- select_repo_type from datatypes.py.  The environment effects are
parameters: path_exists models os.path.exists, is_git_repo models
git.Repo succeeding rather than raising InvalidGitRepositoryError, and
tmp_name is the fresh path produced by tempfile.NamedTemporaryFile
(a freshly created file, so it exists and differs from any
nonexistent path). -/
def select_repo_type (path_exists is_git_repo : String → Bool) (tmp_name : String)
    (repo_path : String) : Except PyError (String × RepoType) :=
  if path_exists repo_path then
    if is_git_repo repo_path then .ok (repo_path, RepoType.Local)
    else .error (.invalidRepoPath ("RepoPath[" ++ repo_path ++ "] is not a Repository"))
  else if isPrefixList "git@github.com".data repo_path.data then
    .ok (tmp_name, RepoType.GithubGIT)
  else if isPrefixList "https://github.com".data repo_path.data then
    .ok (tmp_name, RepoType.GithubHTTPS)
  else
    .error (.invalidRepoPath ("RepoPath[" ++ repo_path ++ "] does not exist"))

/-- Git operations the session can request from the git collaborator;
the session functions below return the exact trace they perform. -/
inductive GitOp
  | clone (url : Option String) (path : String)
  | add (path : String)
  | diff (ref : String)
  | commit (msg : String)
  | push (remote : String)
deriving DecidableEq, Repr

/-- Commit message used verbatim by Repo._sync_repo_remote. -/
def COMMIT_MESSAGE : String :=
  "Added by CircleCI Integration from https://github.com/adrn/nbcollection"

/-- Repo from datatypes.py: repo_path and repo_type from the locator,
repo_url optional, and the mutable _altered_files list. -/
structure Repo where
  repo_path : String
  repo_url : Option String
  repo_type : RepoType
  _altered_files : List String
deriving DecidableEq, Repr

/-- Repo._sync_repo_locally from datatypes.py, as the trace of git
operations it performs: nothing for Local, one clone for either
github type. -/
def Repo.sync_repo_locally (self : Repo) : List GitOp :=
  match self.repo_type with
  | RepoType.Local => []
  | RepoType.GithubGIT => [GitOp.clone self.repo_url self.repo_path]
  | RepoType.GithubHTTPS => [GitOp.clone self.repo_url self.repo_path]

/-- Repo._sync_repo_remote from datatypes.py, as the trace of git
operations it performs.  index_diff_len gives the length of
repo.index.diff(ref) at the moment the code queries it (after the
adds).  The GithubGIT branch stages the altered files, diffs against
the literal origin slash master, and commits plus pushes when that diff
is non-empty or _altered_files is non-empty.  The GithubHTTPS branch
stages the altered files, diffs against DEFAULT_REMOTE slash
DEFAULT_BRANCH, and commits plus pushes only when that diff is
non-empty: the disjunct on _altered_files is commented out in the
source. -/
def Repo.sync_repo_remote (self : Repo) (index_diff_len : String → Nat) : List GitOp :=
  match self.repo_type with
  | RepoType.Local => []
  | RepoType.GithubGIT =>
    (self._altered_files.map GitOp.add) ++ [GitOp.diff "origin/master"] ++
      (if index_diff_len "origin/master" ≠ 0 ∨ self._altered_files.length > 0 then
        [GitOp.commit COMMIT_MESSAGE, GitOp.push "origin"]
      else [])
  | RepoType.GithubHTTPS =>
    (self._altered_files.map GitOp.add) ++ [GitOp.diff (DEFAULT_REMOTE ++ "/" ++ DEFAULT_BRANCH)] ++
      (if index_diff_len (DEFAULT_REMOTE ++ "/" ++ DEFAULT_BRANCH) ≠ 0 then
        [GitOp.commit COMMIT_MESSAGE, GitOp.push "origin"]
      else [])

/-- Repo.__init__ from datatypes.py: resolve path and type through
select_repo_type, set repo_url to the original input when the type is
not Local and to none otherwise, and start _altered_files empty. -/
def Repo.init (path_exists is_git_repo : String → Bool) (tmp_name repo_path : String) :
    Except PyError Repo :=
  match select_repo_type path_exists is_git_repo tmp_name repo_path with
  | .error e => .error e
  | .ok (p, t) =>
    .ok ⟨p, if t = RepoType.Local then none else some repo_path, t, []⟩

/-- Repo.__enter__ from datatypes.py: performs the local sync and
returns the session itself; no field is assigned. -/
def Repo.enter (self : Repo) : Repo × List GitOp :=
  (self, self.sync_repo_locally)

/-- Repo.__exit__ from datatypes.py: performs the remote sync; no
field is assigned. -/
def Repo.exit (self : Repo) (index_diff_len : String → Nat) : Repo × List GitOp :=
  (self, self.sync_repo_remote index_diff_len)

/-- Number of commit operations in a trace. -/
def countCommits (t : List GitOp) : Nat :=
  (t.filter fun o => match o with | GitOp.commit _ => true | _ => false).length

/-- Number of push operations in a trace. -/
def countPushes (t : List GitOp) : Nat :=
  (t.filter fun o => match o with | GitOp.push _ => true | _ => false).length

/-- References a trace diffs against, in order. -/
def diffRefs (t : List GitOp) : List String :=
  t.filterMap fun o => match o with | GitOp.diff r => some r | _ => none

/-- Test that a classification result is the ambiguous-pull-request
failure raised at the guarded branch of select_url_type. -/
def isAmbiguousPRErr : Except PyError URLParts → Bool
  | .error (PyError.notImplementedAmbiguousPR _) => true
  | _ => false

/-! Basic facts about the embedded string primitives and traces. -/

example : RemoteParts.ParseURLToRemoteParts "git@github.com:org/repo.git"
    = .ok ⟨RemoteScheme.Git, "github.com", "org", "repo"⟩ := rfl

example : RemoteParts.ParseURLToRemoteParts "https://github.com/org/repo.git"
    = .ok ⟨RemoteScheme.Https, "github.com", "org", "repo"⟩ := rfl

lemma memChar_iff_mem (e : Char) (cs : List Char) : memChar e cs = true ↔ e ∈ cs := by
  induction cs with
  | nil => simp [memChar]
  | cons x xs ih =>
    simp only [memChar, Bool.or_eq_true, beq_iff_eq, ih, List.mem_cons]
    constructor <;> (rintro (h | h))
    · exact Or.inl h.symm
    · exact Or.inr h
    · exact Or.inl h.symm
    · exact Or.inr h

lemma memChar_eq_false (e : Char) (cs : List Char) : memChar e cs = false ↔ e ∉ cs := by
  rw [← memChar_iff_mem]
  cases memChar e cs <;> simp

lemma memChar_singleton_false (x c : Char) (h : x ≠ c) : memChar x [c] = false := by
  rw [memChar_eq_false]
  simpa using h

lemma splitFirst_none_of_not_mem (c : Char) (l : List Char) (h : c ∉ l) :
    splitFirst c l = none := by
  induction l with
  | nil => rfl
  | cons x xs ih =>
    simp only [List.mem_cons, not_or] at h
    have hx : (x == c) = false := by
      rw [beq_eq_false_iff_ne]
      exact fun hh => h.1 hh.symm
    simp [splitFirst, hx, ih h.2]

lemma not_mem_of_splitFirst_none (c : Char) (l : List Char) (h : splitFirst c l = none) :
    c ∉ l := by
  induction l with
  | nil => simp
  | cons x xs ih =>
    by_cases hx : (x == c) = true
    · simp [splitFirst, hx] at h
    · have hxf : (x == c) = false := by
        cases hxx : (x == c)
        · rfl
        · exact absurd hxx hx
      cases hss : splitFirst c xs with
      | some p => simp [splitFirst, hxf, hss] at h
      | none =>
        intro hmem
        rcases List.mem_cons.mp hmem with h1 | h1
        · exact hx (beq_iff_eq.mpr h1.symm)
        · exact ih hss h1

lemma splitFirst_append (c : Char) (a b : List Char) (h : c ∉ a) :
    splitFirst c (a ++ c :: b) = some (a, b) := by
  induction a with
  | nil => simp [splitFirst]
  | cons x xs ih =>
    simp only [List.mem_cons, not_or] at h
    have hx : (x == c) = false := by
      rw [beq_eq_false_iff_ne]
      exact fun hh => h.1 hh.symm
    simp [splitFirst, hx, ih h.2]

lemma splitFirst_some_fst_not_mem (c : Char) {l a b : List Char}
    (h : splitFirst c l = some (a, b)) : c ∉ a := by
  induction l generalizing a b with
  | nil => cases h
  | cons x xs ih =>
    by_cases hx : (x == c) = true
    · simp only [splitFirst, hx, if_true, if_pos, Option.some.injEq, Prod.mk.injEq] at h
      rw [← h.1]
      simp
    · have hxf : (x == c) = false := by
        cases hxx : (x == c)
        · rfl
        · exact absurd hxx hx
      cases hss : splitFirst c xs with
      | none => simp [splitFirst, hxf, hss] at h
      | some p =>
        obtain ⟨a2, b2⟩ := p
        simp only [splitFirst, hxf, Bool.false_eq_true, if_false, hss,
          Option.some.injEq, Prod.mk.injEq] at h
        rw [← h.1]
        intro hmem
        rcases List.mem_cons.mp hmem with h1 | h1
        · exact hx (beq_iff_eq.mpr h1.symm)
        · exact ih hss h1

lemma splitLast_append (c : Char) (a b : List Char) (h : c ∉ b) :
    splitLast c (a ++ c :: b) = some (a, b) := by
  unfold splitLast
  have hrev : (a ++ c :: b).reverse = b.reverse ++ c :: a.reverse := by
    simp
  rw [hrev, splitFirst_append c _ _ (by simpa using h)]
  simp

lemma isPrefixList_self_append (p r : List Char) : isPrefixList p (p ++ r) = true := by
  induction p with
  | nil => rfl
  | cons x xs ih => simp [isPrefixList, ih]

lemma endsWithList_append (pat x : List Char) : endsWithList pat (x ++ pat) = true := by
  unfold endsWithList
  rw [List.reverse_append]
  exact isPrefixList_self_append _ _

lemma take_append_len (x pat : List Char) :
    (x ++ pat).take ((x ++ pat).length - pat.length) = x := by
  rw [List.length_append, Nat.add_sub_cancel]
  exact List.take_left x pat

lemma splitFirstSub_self (p r : List Char) (hp : p ≠ []) :
    splitFirstSub p (p ++ r) = some ([], r) := by
  match p, hp with
  | x :: xs, _ =>
    have hpre : isPrefixList (x :: xs) (x :: (xs ++ r)) = true := by
      simpa using isPrefixList_self_append (x :: xs) r
    show splitFirstSub (x :: xs) (x :: (xs ++ r)) = some ([], r)
    rw [splitFirstSub, if_pos hpre]
    simp [List.drop_left]

lemma splitLastSub_append_self (pat x : List Char) (hp : pat ≠ []) :
    splitLastSub pat (x ++ pat) = some (x, []) := by
  unfold splitLastSub
  rw [List.reverse_append, splitFirstSub_self _ _ (by simpa using hp)]
  simp

lemma dropWhile_cons_false (p : Char → Bool) (x : Char) (xs : List Char) (h : p x = false) :
    (x :: xs).dropWhile p = x :: xs := by
  simp [List.dropWhile_cons, h]

lemma dropWhile_eq_self_of_forall (p : Char → Bool) (l : List Char)
    (h : ∀ x ∈ l, p x = false) : l.dropWhile p = l := by
  cases l with
  | nil => rfl
  | cons x xs => exact dropWhile_cons_false p x xs (h x (List.mem_cons_self _ _))

lemma dropWhile_append_head_false (p : Char → Bool) (l t : List Char) (hl : l ≠ [])
    (h : ∀ x ∈ l, p x = false) : (l ++ t).dropWhile p = l ++ t := by
  match l, hl with
  | x :: xs, _ =>
    rw [List.cons_append]
    exact dropWhile_cons_false p x (xs ++ t) (h x (List.mem_cons_self _ _))

lemma stripChars_single_no (c : Char) (l : List Char) (h : c ∉ l) :
    stripChars [c] l = l := by
  unfold stripChars
  have hall : ∀ x ∈ l, memChar x [c] = false := by
    intro x hx
    exact memChar_singleton_false x c (fun hh => h (hh ▸ hx))
  rw [dropWhile_eq_self_of_forall _ _ hall,
    dropWhile_eq_self_of_forall _ _ (fun x hx => hall x (List.mem_reverse.mp hx)),
    List.reverse_reverse]

lemma stripChars_slash_cons (l : List Char) :
    stripChars ['/'] ('/' :: l) = stripChars ['/'] l := rfl

lemma stripChars_slash_mid (org repo : List Char) (ho : '/' ∉ org) (hr : '/' ∉ repo)
    (hno : org ≠ []) (hnr : repo ≠ []) :
    stripChars ['/'] ('/' :: (org ++ '/' :: repo)) = org ++ '/' :: repo := by
  rw [stripChars_slash_cons]
  unfold stripChars
  have hallo : ∀ x ∈ org, memChar x ['/'] = false := by
    intro x hx
    exact memChar_singleton_false x '/' (fun hh => ho (hh ▸ hx))
  have hallr : ∀ x ∈ repo, memChar x ['/'] = false := by
    intro x hx
    exact memChar_singleton_false x '/' (fun hh => hr (hh ▸ hx))
  rw [dropWhile_append_head_false _ org ('/' :: repo) hno hallo]
  have hrev : (org ++ '/' :: repo).reverse = repo.reverse ++ '/' :: org.reverse := by
    simp
  rw [hrev,
    dropWhile_append_head_false _ repo.reverse ('/' :: org.reverse)
      (by simpa using hnr) (fun x hx => hallr x (List.mem_reverse.mp hx)),
    ← hrev, List.reverse_reverse]

lemma pySplitAll_no (c : Char) (l : List Char) (h : c ∉ l) : pySplitAll c l = [l] := by
  induction l with
  | nil => rfl
  | cons x xs ih =>
    simp only [List.mem_cons, not_or] at h
    have hx : (x == c) = false := by
      rw [beq_eq_false_iff_ne]
      exact fun hh => h.1 hh.symm
    simp [pySplitAll, hx, ih h.2]

lemma pySplitAll_append (c : Char) (a b : List Char) (h : c ∉ a) :
    pySplitAll c (a ++ c :: b) = a :: pySplitAll c b := by
  induction a with
  | nil => simp [pySplitAll]
  | cons x xs ih =>
    simp only [List.mem_cons, not_or] at h
    have hx : (x == c) = false := by
      rw [beq_eq_false_iff_ne]
      exact fun hh => h.1 hh.symm
    have hne : pySplitAll c (xs ++ c :: b) ≠ [] := by
      rw [ih h.2]
      simp
    simp [pySplitAll, hx, ih h.2]

lemma countCommits_append (a b : List GitOp) :
    countCommits (a ++ b) = countCommits a + countCommits b := by
  simp [countCommits, List.filter_append]

lemma countPushes_append (a b : List GitOp) :
    countPushes (a ++ b) = countPushes a + countPushes b := by
  simp [countPushes, List.filter_append]

lemma diffRefs_append (a b : List GitOp) :
    diffRefs (a ++ b) = diffRefs a ++ diffRefs b := by
  simp [diffRefs, List.filterMap_append]

lemma countCommits_map_add (files : List String) :
    countCommits (files.map GitOp.add) = 0 := by
  induction files with
  | nil => rfl
  | cons f fs ih => simpa [countCommits, List.filter_cons] using ih

lemma countPushes_map_add (files : List String) :
    countPushes (files.map GitOp.add) = 0 := by
  induction files with
  | nil => rfl
  | cons f fs ih => simpa [countPushes, List.filter_cons] using ih

lemma diffRefs_map_add (files : List String) :
    diffRefs (files.map GitOp.add) = [] := by
  induction files with
  | nil => rfl
  | cons f fs ih => simpa [diffRefs, List.filterMap_cons] using ih

/-- C8: for every session of type Local, scope entry and scope release
perform no git operation at all (no clone, add, commit, or push),
whatever the contents of _altered_files. -/
theorem claim_C8_local_noop (p : String) (u : Option String) (files : List String)
    (d : String → Nat) :
    (Repo.enter ⟨p, u, RepoType.Local, files⟩).2 = [] ∧
    (Repo.exit ⟨p, u, RepoType.Local, files⟩ d).2 = [] :=
  ⟨rfl, rfl⟩

/-- C2: on the pull-request URL of scenario B the classifier does
return GithubPullRequest with org spacetelescope and repo name
dat_pyinthesky, but the fourth component is the string 125, not the
numeric id 125: the code forwards pr_num without an int conversion,
contradicting the int annotation on URLParts.pull_request_number. -/
theorem claim_C2_eval :
    select_url_type "https://github.com/spacetelescope/dat_pyinthesky/pull/125"
      RepoType.GithubHTTPS
    = Except.ok ⟨URLType.GithubPullRequest, "spacetelescope", "dat_pyinthesky",
        PyVal.str "125"⟩ := rfl

/-- C1 (counterexample): a GithubHTTPS session with empty index diff
and non-empty _altered_files stages the file and then performs no
commit and no push, although the claim requires exactly one commit
and one push whenever _altered_files is non-empty. -/
theorem claim_C1_counterexample :
    ((⟨"/tmp/work", some "https://github.com/a/b", RepoType.GithubHTTPS,
        ["notebooks/foo.ipynb"]⟩ : Repo)._altered_files ≠ []) ∧
    (Repo.sync_repo_remote
        ⟨"/tmp/work", some "https://github.com/a/b", RepoType.GithubHTTPS,
          ["notebooks/foo.ipynb"]⟩ (fun _ => 0)
      = [GitOp.add "notebooks/foo.ipynb", GitOp.diff "origin/main"]) ∧
    countCommits (Repo.sync_repo_remote
        ⟨"/tmp/work", some "https://github.com/a/b", RepoType.GithubHTTPS,
          ["notebooks/foo.ipynb"]⟩ (fun _ => 0)) = 0 ∧
    countPushes (Repo.sync_repo_remote
        ⟨"/tmp/work", some "https://github.com/a/b", RepoType.GithubHTTPS,
          ["notebooks/foo.ipynb"]⟩ (fun _ => 0)) = 0 :=
  ⟨by decide, rfl, rfl, rfl⟩

/-- C1 (amended): on release every altered file is staged and commit
and push always come together, at most once; for a GithubGIT session
exactly one commit and push occur iff the index diff against the
literal origin/master is non-empty or _altered_files is non-empty,
while for a GithubHTTPS session they occur iff the index diff against
DEFAULT_REMOTE/DEFAULT_BRANCH is non-empty, the state of
_altered_files being irrelevant to that decision. -/
theorem claim_C1_amended (r : Repo) (d : String → Nat)
    (ht : r.repo_type = RepoType.GithubGIT ∨ r.repo_type = RepoType.GithubHTTPS) :
    (∀ f ∈ r._altered_files, GitOp.add f ∈ r.sync_repo_remote d) ∧
    countPushes (r.sync_repo_remote d) = countCommits (r.sync_repo_remote d) ∧
    countCommits (r.sync_repo_remote d) ≤ 1 ∧
    (countCommits (r.sync_repo_remote d) = 1 ↔
      ((r.repo_type = RepoType.GithubGIT ∧
          (d "origin/master" ≠ 0 ∨ r._altered_files ≠ [])) ∨
       (r.repo_type = RepoType.GithubHTTPS ∧
          d (DEFAULT_REMOTE ++ "/" ++ DEFAULT_BRANCH) ≠ 0))) := by
  obtain ⟨p, u, ty, files⟩ := r
  rcases ht with h | h <;> subst h
  · have htr : Repo.sync_repo_remote ⟨p, u, RepoType.GithubGIT, files⟩ d
        = files.map GitOp.add ++ [GitOp.diff "origin/master"] ++
          (if d "origin/master" ≠ 0 ∨ files.length > 0 then
            [GitOp.commit COMMIT_MESSAGE, GitOp.push "origin"] else []) := rfl
    have hCC : countCommits (Repo.sync_repo_remote ⟨p, u, RepoType.GithubGIT, files⟩ d)
        = if d "origin/master" ≠ 0 ∨ files.length > 0 then 1 else 0 := by
      rw [htr]
      by_cases hc : d "origin/master" ≠ 0 ∨ files.length > 0
      · rw [if_pos hc, if_pos hc, countCommits_append, countCommits_append,
          countCommits_map_add]
        rfl
      · rw [if_neg hc, if_neg hc, countCommits_append, countCommits_append,
          countCommits_map_add]
        rfl
    have hCP : countPushes (Repo.sync_repo_remote ⟨p, u, RepoType.GithubGIT, files⟩ d)
        = if d "origin/master" ≠ 0 ∨ files.length > 0 then 1 else 0 := by
      rw [htr]
      by_cases hc : d "origin/master" ≠ 0 ∨ files.length > 0
      · rw [if_pos hc, if_pos hc, countPushes_append, countPushes_append,
          countPushes_map_add]
        rfl
      · rw [if_neg hc, if_neg hc, countPushes_append, countPushes_append,
          countPushes_map_add]
        rfl
    refine ⟨?_, ?_, ?_, ?_⟩
    · intro f hf
      rw [htr]
      simp only [List.mem_append]
      exact Or.inl (Or.inl (List.mem_map_of_mem _ hf))
    · rw [hCC, hCP]
    · rw [hCC]; split <;> omega
    · rw [hCC]
      constructor
      · intro h1
        by_cases hc : d "origin/master" ≠ 0 ∨ files.length > 0
        · refine Or.inl ⟨rfl, ?_⟩
          rcases hc with hc1 | hc2
          · exact Or.inl hc1
          · exact Or.inr (List.length_pos.mp hc2)
        · rw [if_neg hc] at h1; omega
      · rintro (⟨_, hcond⟩ | ⟨hbad, _⟩)
        · have hc : d "origin/master" ≠ 0 ∨ files.length > 0 := by
            rcases hcond with h1 | h2
            · exact Or.inl h1
            · exact Or.inr (List.length_pos.mpr h2)
          rw [if_pos hc]
        · exact RepoType.noConfusion hbad
  · have htr : Repo.sync_repo_remote ⟨p, u, RepoType.GithubHTTPS, files⟩ d
        = files.map GitOp.add ++ [GitOp.diff (DEFAULT_REMOTE ++ "/" ++ DEFAULT_BRANCH)] ++
          (if d (DEFAULT_REMOTE ++ "/" ++ DEFAULT_BRANCH) ≠ 0 then
            [GitOp.commit COMMIT_MESSAGE, GitOp.push "origin"] else []) := rfl
    have hCC : countCommits (Repo.sync_repo_remote ⟨p, u, RepoType.GithubHTTPS, files⟩ d)
        = if d (DEFAULT_REMOTE ++ "/" ++ DEFAULT_BRANCH) ≠ 0 then 1 else 0 := by
      rw [htr]
      by_cases hc : d (DEFAULT_REMOTE ++ "/" ++ DEFAULT_BRANCH) ≠ 0
      · rw [if_pos hc, if_pos hc, countCommits_append, countCommits_append,
          countCommits_map_add]
        rfl
      · rw [if_neg hc, if_neg hc, countCommits_append, countCommits_append,
          countCommits_map_add]
        rfl
    have hCP : countPushes (Repo.sync_repo_remote ⟨p, u, RepoType.GithubHTTPS, files⟩ d)
        = if d (DEFAULT_REMOTE ++ "/" ++ DEFAULT_BRANCH) ≠ 0 then 1 else 0 := by
      rw [htr]
      by_cases hc : d (DEFAULT_REMOTE ++ "/" ++ DEFAULT_BRANCH) ≠ 0
      · rw [if_pos hc, if_pos hc, countPushes_append, countPushes_append,
          countPushes_map_add]
        rfl
      · rw [if_neg hc, if_neg hc, countPushes_append, countPushes_append,
          countPushes_map_add]
        rfl
    refine ⟨?_, ?_, ?_, ?_⟩
    · intro f hf
      rw [htr]
      simp only [List.mem_append]
      exact Or.inl (Or.inl (List.mem_map_of_mem _ hf))
    · rw [hCC, hCP]
    · rw [hCC]; split <;> omega
    · rw [hCC]
      constructor
      · intro h1
        by_cases hc : d (DEFAULT_REMOTE ++ "/" ++ DEFAULT_BRANCH) ≠ 0
        · exact Or.inr ⟨rfl, hc⟩
        · rw [if_neg hc] at h1; omega
      · rintro (⟨hbad, _⟩ | ⟨_, hcond⟩)
        · exact RepoType.noConfusion hbad
        · rw [if_pos hcond]

/-- Witness for C1 (amended): a GithubHTTPS session with a non-empty
index diff gets exactly one commit and one push. -/
theorem claim_C1_amended_witness :
    (∀ f ∈ (⟨"/t", some "u", RepoType.GithubHTTPS, []⟩ : Repo)._altered_files,
        GitOp.add f ∈ Repo.sync_repo_remote ⟨"/t", some "u", RepoType.GithubHTTPS, []⟩ (fun _ => 1)) ∧
    countPushes (Repo.sync_repo_remote ⟨"/t", some "u", RepoType.GithubHTTPS, []⟩ (fun _ => 1))
      = countCommits (Repo.sync_repo_remote ⟨"/t", some "u", RepoType.GithubHTTPS, []⟩ (fun _ => 1)) ∧
    countCommits (Repo.sync_repo_remote ⟨"/t", some "u", RepoType.GithubHTTPS, []⟩ (fun _ => 1)) ≤ 1 ∧
    (countCommits (Repo.sync_repo_remote ⟨"/t", some "u", RepoType.GithubHTTPS, []⟩ (fun _ => 1)) = 1 ↔
      (((⟨"/t", some "u", RepoType.GithubHTTPS, []⟩ : Repo).repo_type = RepoType.GithubGIT ∧
          ((fun _ => 1 : String → Nat) "origin/master" ≠ 0 ∨
            (⟨"/t", some "u", RepoType.GithubHTTPS, []⟩ : Repo)._altered_files ≠ [])) ∨
       ((⟨"/t", some "u", RepoType.GithubHTTPS, []⟩ : Repo).repo_type = RepoType.GithubHTTPS ∧
          (fun _ => 1 : String → Nat) (DEFAULT_REMOTE ++ "/" ++ DEFAULT_BRANCH) ≠ 0))) :=
  claim_C1_amended ⟨"/t", some "u", RepoType.GithubHTTPS, []⟩ (fun _ => 1) (Or.inr rfl)

/-- C4 (counterexample): a GithubGIT session computes its release
diff against the literal origin/master, not against the configurable
DEFAULT_REMOTE/DEFAULT_BRANCH pair, whose default value is
origin/main. -/
theorem claim_C4_counterexample :
    diffRefs (Repo.sync_repo_remote
        ⟨"/t", some "git@github.com:a/b.git", RepoType.GithubGIT, []⟩ (fun _ => 0))
      = ["origin/master"] ∧
    DEFAULT_REMOTE ++ "/" ++ DEFAULT_BRANCH = "origin/main" ∧
    ("origin/master" : String) ≠ "origin/main" :=
  ⟨rfl, rfl, by decide⟩

/-- C4 (amended): the release diff reference of a session is fully
determined by its type: none for Local, the hardcoded origin/master
for GithubGIT, and the configurable DEFAULT_REMOTE/DEFAULT_BRANCH
(by default origin/main) only for GithubHTTPS. -/
theorem claim_C4_amended (r : Repo) (d : String → Nat) :
    diffRefs (r.sync_repo_remote d) =
      (match r.repo_type with
       | RepoType.Local => []
       | RepoType.GithubGIT => ["origin/master"]
       | RepoType.GithubHTTPS => [DEFAULT_REMOTE ++ "/" ++ DEFAULT_BRANCH]) := by
  obtain ⟨p, u, ty, files⟩ := r
  cases ty
  · rfl
  · have htr : Repo.sync_repo_remote ⟨p, u, RepoType.GithubGIT, files⟩ d
        = files.map GitOp.add ++ [GitOp.diff "origin/master"] ++
          (if d "origin/master" ≠ 0 ∨ files.length > 0 then
            [GitOp.commit COMMIT_MESSAGE, GitOp.push "origin"] else []) := rfl
    rw [htr]
    by_cases hc : d "origin/master" ≠ 0 ∨ files.length > 0
    · rw [if_pos hc, diffRefs_append, diffRefs_append, diffRefs_map_add]
      rfl
    · rw [if_neg hc, diffRefs_append, diffRefs_append, diffRefs_map_add]
      rfl
  · have htr : Repo.sync_repo_remote ⟨p, u, RepoType.GithubHTTPS, files⟩ d
        = files.map GitOp.add ++ [GitOp.diff (DEFAULT_REMOTE ++ "/" ++ DEFAULT_BRANCH)] ++
          (if d (DEFAULT_REMOTE ++ "/" ++ DEFAULT_BRANCH) ≠ 0 then
            [GitOp.commit COMMIT_MESSAGE, GitOp.push "origin"] else []) := rfl
    rw [htr]
    by_cases hc : d (DEFAULT_REMOTE ++ "/" ++ DEFAULT_BRANCH) ≠ 0
    · rw [if_pos hc, diffRefs_append, diffRefs_append, diffRefs_map_add]
      rfl
    · rw [if_neg hc, diffRefs_append, diffRefs_append, diffRefs_map_add]
      rfl

/-- C9: a successfully constructed session has repo_url set iff its
type is not Local, with the url equal to the original input string for
the non-local types; _altered_files starts empty; scope entry and
scope release hand back the session with url and type unchanged. -/
theorem claim_C9_invariant (pe ir : String → Bool) (tn rp : String) (r : Repo)
    (h : Repo.init pe ir tn rp = Except.ok r) :
    ((r.repo_url ≠ none) ↔ r.repo_type ≠ RepoType.Local) ∧
    (r.repo_type ≠ RepoType.Local → r.repo_url = some rp) ∧
    (r.repo_type = RepoType.Local → r.repo_url = none) ∧
    r._altered_files = [] ∧
    (Repo.enter r).1 = r ∧ (∀ d, (Repo.exit r d).1 = r) := by
  unfold Repo.init at h
  split at h
  · exact absurd h (by simp)
  next p t heq =>
    simp only [Except.ok.injEq] at h
    subst h
    refine ⟨?_, ?_, ?_, rfl, rfl, fun d => rfl⟩
    · by_cases ht : t = RepoType.Local <;> simp [ht]
    · intro hnl; simp only [Repo.repo_url]
      rw [if_neg (by simpa using hnl)]
    · intro hl; simp only [Repo.repo_url]
      rw [if_pos (by simpa using hl)]

/-- Witness for C9: a GithubHTTPS construction satisfies the
invariant, with repo_url carrying the original locator. -/
theorem claim_C9_witness :
    (((⟨"/tmp/t0", some "https://github.com/a/b", RepoType.GithubHTTPS, []⟩ : Repo).repo_url ≠ none)
        ↔ (⟨"/tmp/t0", some "https://github.com/a/b", RepoType.GithubHTTPS, []⟩ : Repo).repo_type ≠ RepoType.Local) ∧
    ((⟨"/tmp/t0", some "https://github.com/a/b", RepoType.GithubHTTPS, []⟩ : Repo).repo_type ≠ RepoType.Local →
        (⟨"/tmp/t0", some "https://github.com/a/b", RepoType.GithubHTTPS, []⟩ : Repo).repo_url
          = some "https://github.com/a/b") ∧
    ((⟨"/tmp/t0", some "https://github.com/a/b", RepoType.GithubHTTPS, []⟩ : Repo).repo_type = RepoType.Local →
        (⟨"/tmp/t0", some "https://github.com/a/b", RepoType.GithubHTTPS, []⟩ : Repo).repo_url = none) ∧
    (⟨"/tmp/t0", some "https://github.com/a/b", RepoType.GithubHTTPS, []⟩ : Repo)._altered_files = [] ∧
    (Repo.enter ⟨"/tmp/t0", some "https://github.com/a/b", RepoType.GithubHTTPS, []⟩).1
      = ⟨"/tmp/t0", some "https://github.com/a/b", RepoType.GithubHTTPS, []⟩ ∧
    (∀ d, (Repo.exit ⟨"/tmp/t0", some "https://github.com/a/b", RepoType.GithubHTTPS, []⟩ d).1
      = ⟨"/tmp/t0", some "https://github.com/a/b", RepoType.GithubHTTPS, []⟩) :=
  claim_C9_invariant (fun _ => false) (fun _ => true) "/tmp/t0" "https://github.com/a/b"
    ⟨"/tmp/t0", some "https://github.com/a/b", RepoType.GithubHTTPS, []⟩ rfl

lemma https_not_git_prefix (l : List Char)
    (h : isPrefixList "https://github.com".data l = true) :
    isPrefixList "git@github.com".data l = false := by
  match l with
  | [] => exact absurd h (by decide)
  | x :: xs =>
    have h2 : ('h' == x && isPrefixList "ttps://github.com".data xs) = true := h
    simp only [Bool.and_eq_true, beq_iff_eq] at h2
    have hx : x = 'h' := h2.1.symm
    subst hx
    rfl

/-- C7: the locator returns the path unchanged with type Local when it
exists and is a valid repository; fails with InvalidRepoPath when the
existing path is not a repository; hands back the fresh temporary name
with type GithubGIT or GithubHTTPS for the two github prefixes of a
nonexistent path (a name distinct from the input, since the temporary
file exists while the input does not); and fails with InvalidRepoPath
on every other input. -/
theorem claim_C7_locator (pe ir : String → Bool) (tn rp : String) :
    (pe rp = true → ir rp = true →
      select_repo_type pe ir tn rp = Except.ok (rp, RepoType.Local)) ∧
    (pe rp = true → ir rp = false →
      select_repo_type pe ir tn rp
        = Except.error (PyError.invalidRepoPath ("RepoPath[" ++ rp ++ "] is not a Repository"))) ∧
    (pe rp = false → isPrefixList "git@github.com".data rp.data = true →
      select_repo_type pe ir tn rp = Except.ok (tn, RepoType.GithubGIT) ∧
      (pe tn = true → tn ≠ rp)) ∧
    (pe rp = false → isPrefixList "https://github.com".data rp.data = true →
      select_repo_type pe ir tn rp = Except.ok (tn, RepoType.GithubHTTPS) ∧
      (pe tn = true → tn ≠ rp)) ∧
    (pe rp = false → isPrefixList "git@github.com".data rp.data = false →
      isPrefixList "https://github.com".data rp.data = false →
      select_repo_type pe ir tn rp
        = Except.error (PyError.invalidRepoPath ("RepoPath[" ++ rp ++ "] does not exist"))) := by
  refine ⟨?_, ?_, ?_, ?_, ?_⟩
  · intro h1 h2; simp [select_repo_type, h1, h2]
  · intro h1 h2; simp [select_repo_type, h1, h2]
  · intro h1 h2
    refine ⟨by simp [select_repo_type, h1, h2], ?_⟩
    intro h3 he
    rw [he, h1] at h3
    exact Bool.noConfusion h3
  · intro h1 h2
    refine ⟨by simp [select_repo_type, h1, h2, https_not_git_prefix rp.data h2], ?_⟩
    intro h3 he
    rw [he, h1] at h3
    exact Bool.noConfusion h3
  · intro h1 h2 h3; simp [select_repo_type, h1, h2, h3]

/-- Witness for C7: each locator behavior at a concrete input. -/
theorem claim_C7_witness :
    (select_repo_type (fun _ => true) (fun _ => true) "/tmp/t0" "/repo"
        = Except.ok ("/repo", RepoType.Local)) ∧
    (select_repo_type (fun _ => true) (fun _ => false) "/tmp/t0" "/repo"
        = Except.error (PyError.invalidRepoPath ("RepoPath[" ++ "/repo" ++ "] is not a Repository"))) ∧
    (select_repo_type (fun s => s == "/tmp/t0") (fun _ => true) "/tmp/t0" "git@github.com:a/b.git"
        = Except.ok ("/tmp/t0", RepoType.GithubGIT) ∧ "/tmp/t0" ≠ "git@github.com:a/b.git") ∧
    (select_repo_type (fun s => s == "/tmp/t0") (fun _ => true) "/tmp/t0" "https://github.com/a/b"
        = Except.ok ("/tmp/t0", RepoType.GithubHTTPS) ∧ "/tmp/t0" ≠ "https://github.com/a/b") ∧
    (select_repo_type (fun _ => false) (fun _ => true) "/tmp/t0" "ftp://example.com/x"
        = Except.error (PyError.invalidRepoPath ("RepoPath[" ++ "ftp://example.com/x" ++ "] does not exist"))) := by
  refine ⟨?_, ?_, ?_, ?_, ?_⟩
  · exact (claim_C7_locator (fun _ => true) (fun _ => true) "/tmp/t0" "/repo").1 rfl rfl
  · exact (claim_C7_locator (fun _ => true) (fun _ => false) "/tmp/t0" "/repo").2.1 rfl rfl
  · have h := (claim_C7_locator (fun s => s == "/tmp/t0") (fun _ => true) "/tmp/t0"
      "git@github.com:a/b.git").2.2.1 (by decide) (by decide)
    exact ⟨h.1, h.2 (by decide)⟩
  · have h := (claim_C7_locator (fun s => s == "/tmp/t0") (fun _ => true) "/tmp/t0"
      "https://github.com/a/b").2.2.2.1 (by decide) (by decide)
    exact ⟨h.1, h.2 (by decide)⟩
  · exact (claim_C7_locator (fun _ => false) (fun _ => true) "/tmp/t0"
      "ftp://example.com/x").2.2.2.2 rfl (by decide) (by decide)

lemma pr_num_no_slash (rest : List Char) :
    memChar '/' (headOrNil (pySplit '/' 1 (stripChars "pull/".data rest))) = false := by
  cases hsp : splitFirst '/' (stripChars "pull/".data rest) with
  | none =>
    simp only [pySplit, hsp, headOrNil]
    exact (memChar_eq_false _ _).mpr (not_mem_of_splitFirst_none _ _ hsp)
  | some ab =>
    obtain ⟨a, b⟩ := ab
    simp only [pySplit, hsp, headOrNil]
    exact (memChar_eq_false _ _).mpr (splitFirst_some_fst_not_mem _ hsp)

lemma classify_not_ambiguous (parts : List (List Char)) :
    isAmbiguousPRErr (classify_url_path parts) = false := by
  match parts with
  | [] => rfl
  | [a] => rfl
  | [a, b] => rfl
  | [a, b, c] =>
    by_cases hp : isPrefixList "pull".data c = true
    · have hm := pr_num_no_slash c
      simp [classify_url_path, hp, hm, isAmbiguousPRErr]
    · have hpf : isPrefixList "pull".data c = false := by
        cases hh : isPrefixList "pull".data c
        · rfl
        · exact absurd hh hp
      simp [classify_url_path, hpf, isAmbiguousPRErr]
  | a :: b :: c :: d :: tl => rfl

/-- C3 (counterexample): on a three-segment path whose pull remainder
still carries a slash-separated suffix after the numeric id (here
125/files, which minus the id 125 leaves /files, containing a slash),
select_url_type does not fail at all: the extracted piece is the text
before the first slash, the dead ambiguity guard never fires, and the
call succeeds, discarding the suffix. -/
theorem claim_C3_counterexample :
    select_url_type "https://github.com/thisorg/thisrepo/pull/125/files" RepoType.GithubHTTPS
      = Except.ok ⟨URLType.GithubPullRequest, "thisorg", "thisrepo", PyVal.str "125"⟩ ∧
    "125/files".data = "125".data ++ "/files".data ∧
    '/' ∈ "/files".data :=
  ⟨rfl, rfl, by decide⟩

/-- C3 (amended): the ambiguity guard in select_url_type compares the
piece of the stripped remainder that precedes its first slash, which
can never contain a slash, so no input at all makes select_url_type
fail with the ambiguous-pull-request error; inputs with a trailing
suffix succeed with the suffix discarded. -/
theorem claim_C3_amended (url : String) (rt : RepoType) :
    isAmbiguousPRErr (select_url_type url rt) = false := by
  cases rt
  · rfl
  · exact classify_not_ambiguous _
  · exact classify_not_ambiguous _

lemma urlparse_https_github (r : List Char) :
    urlparse ("https://github.com/".data ++ r)
      = ⟨"https".data, "github.com".data, '/' :: r⟩ := rfl

/-- C10: when the path after the host consists of a single segment with
no slash, select_url_type under either supported repo type fails with
the raw tuple-unpacking ValueError escaping the fallback branch, not
with any of the named classification errors. -/
theorem claim_C10_single_segment (seg : String) (h : '/' ∉ seg.data) :
    select_url_type ("https://github.com/" ++ seg) RepoType.GithubGIT
      = Except.error (PyError.valueError "not enough values to unpack (expected 2, got 1)") ∧
    select_url_type ("https://github.com/" ++ seg) RepoType.GithubHTTPS
      = Except.error (PyError.valueError "not enough values to unpack (expected 2, got 1)") := by
  have hdata : ("https://github.com/" ++ seg).data = "https://github.com/".data ++ seg.data :=
    String.data_append _ _
  have hstrip : stripChars ['/'] ('/' :: seg.data) = seg.data := by
    rw [stripChars_slash_cons]
    exact stripChars_single_no _ _ h
  have hsplit : pySplit '/' 2 seg.data = [seg.data] := by
    have hnone := splitFirst_none_of_not_mem '/' seg.data h
    simp [pySplit, hnone]
  constructor <;>
  · show classify_url_path
        (pySplit '/' 2 (stripChars ['/'] (urlparse ("https://github.com/" ++ seg).data).path)) = _
    rw [hdata, urlparse_https_github]
    rw [show (⟨"https".data, "github.com".data, '/' :: seg.data⟩ : PyURL).path
        = '/' :: seg.data from rfl]
    rw [hstrip, hsplit]
    rfl

/-- Witness for C10: the single-segment input orgonly fails with the
tuple-unpacking ValueError under both supported repo types. -/
theorem claim_C10_witness :
    select_url_type ("https://github.com/" ++ "orgonly") RepoType.GithubGIT
      = Except.error (PyError.valueError "not enough values to unpack (expected 2, got 1)") ∧
    select_url_type ("https://github.com/" ++ "orgonly") RepoType.GithubHTTPS
      = Except.error (PyError.valueError "not enough values to unpack (expected 2, got 1)") :=
  claim_C10_single_segment "orgonly" (by decide)

lemma parse_git_core (host org repo : List Char)
    (h1 : ':' ∉ org) (h2 : ':' ∉ repo) (h3 : '/' ∉ org) (orig : String) :
    parseRemote ("git@".data ++ (host ++ ':' :: (org ++ '/' :: (repo ++ ".git".data)))) orig
      = Except.ok ⟨RemoteScheme.Git, String.mk host, String.mk org, String.mk repo⟩ := by
  have hT : ':' ∉ (org ++ '/' :: (repo ++ ".git".data)) := by
    intro hmem
    simp only [List.mem_append, List.mem_cons] at hmem
    rcases hmem with hc | hc | hc | hc
    · exact h1 hc
    · exact absurd hc (by decide)
    · exact h2 hc
    · exact absurd hc (by decide)
  have e1 : isPrefixList "git@".data
      ("git@".data ++ (host ++ ':' :: (org ++ '/' :: (repo ++ ".git".data)))) = true :=
    isPrefixList_self_append _ _
  have e2 : splitFirst '@' ("git@".data ++ (host ++ ':' :: (org ++ '/' :: (repo ++ ".git".data))))
      = some ("git".data, host ++ ':' :: (org ++ '/' :: (repo ++ ".git".data))) := rfl
  have e3 : splitLast ':' (host ++ ':' :: (org ++ '/' :: (repo ++ ".git".data)))
      = some (host, org ++ '/' :: (repo ++ ".git".data)) := splitLast_append _ _ _ hT
  have e4 : splitLast ':' ("git@".data ++ (host ++ ':' :: (org ++ '/' :: (repo ++ ".git".data))))
      = some ("git@".data ++ host, org ++ '/' :: (repo ++ ".git".data)) := by
    have hassoc : "git@".data ++ (host ++ ':' :: (org ++ '/' :: (repo ++ ".git".data)))
        = ("git@".data ++ host) ++ ':' :: (org ++ '/' :: (repo ++ ".git".data)) := by
      simp
    rw [hassoc]
    exact splitLast_append _ _ _ hT
  have e5 : org ++ '/' :: (repo ++ ".git".data) = (org ++ '/' :: repo) ++ ".git".data := by
    simp
  have e6 : endsWithList ".git".data (org ++ '/' :: (repo ++ ".git".data)) = true := by
    rw [e5]
    exact endsWithList_append _ _
  have e7 : (org ++ '/' :: (repo ++ ".git".data)).take
      ((org ++ '/' :: (repo ++ ".git".data)).length - 4) = org ++ '/' :: repo := by
    rw [e5]
    have := take_append_len (org ++ '/' :: repo) (".git".data)
    simpa using this
  have e8 : splitFirst '/' (org ++ '/' :: repo) = some (org, repo) :=
    splitFirst_append _ _ _ h3
  simp only [parseRemote, e1, e2, e3, e4, e6, e7, e8, if_true]

lemma ParseURL_git_at (host org repo : String)
    (h1 : ':' ∉ org.data) (h2 : ':' ∉ repo.data) (h3 : '/' ∉ org.data) :
    RemoteParts.ParseURLToRemoteParts ("git@" ++ host ++ ":" ++ org ++ "/" ++ repo ++ ".git")
      = Except.ok ⟨RemoteScheme.Git, host, org, repo⟩ := by
  have hd : ("git@" ++ host ++ ":" ++ org ++ "/" ++ repo ++ ".git").data
      = "git@".data ++ (host.data ++ ':' :: (org.data ++ '/' :: (repo.data ++ ".git".data))) := by
    simp only [String.data_append, List.append_assoc]
    rfl
  unfold RemoteParts.ParseURLToRemoteParts
  rw [hd, parse_git_core _ _ _ h1 h2 h3]

lemma parse_https_core (host org repo : List Char)
    (hh : '/' ∉ host) (ho : '/' ∉ org) (hr : '/' ∉ repo)
    (hno : org ≠ []) (hnr : repo ≠ []) (orig : String) :
    parseRemote ("https://".data ++ (host ++ '/' :: (org ++ '/' :: (repo ++ ".git".data)))) orig
      = Except.ok ⟨RemoteScheme.Https, String.mk host, String.mk org, String.mk repo⟩ := by
  have e0 : isPrefixList "git@".data
      ("https://".data ++ (host ++ '/' :: (org ++ '/' :: (repo ++ ".git".data)))) = false := rfl
  have e1 : isPrefixList "http".data
      ("https://".data ++ (host ++ '/' :: (org ++ '/' :: (repo ++ ".git".data)))) = true := rfl
  have eassoc : "https://".data ++ (host ++ '/' :: (org ++ '/' :: (repo ++ ".git".data)))
      = ("https://".data ++ (host ++ '/' :: (org ++ '/' :: repo))) ++ ".git".data := by
    simp
  have e2 : endsWithList ".git".data
      ("https://".data ++ (host ++ '/' :: (org ++ '/' :: (repo ++ ".git".data)))) = true := by
    rw [eassoc]
    exact endsWithList_append _ _
  have e3 : urlparse ("https://".data ++ (host ++ '/' :: (org ++ '/' :: (repo ++ ".git".data))))
      = ⟨"https".data, host, '/' :: (org ++ '/' :: (repo ++ ".git".data))⟩ := by
    have es : splitFirstSub [':', '/', '/']
        ("https://".data ++ (host ++ '/' :: (org ++ '/' :: (repo ++ ".git".data))))
        = some ("https".data, host ++ '/' :: (org ++ '/' :: (repo ++ ".git".data))) := rfl
    have ef : splitFirst '/' (host ++ '/' :: (org ++ '/' :: (repo ++ ".git".data)))
        = some (host, org ++ '/' :: (repo ++ ".git".data)) := splitFirst_append _ _ _ hh
    simp only [urlparse, es, ef]
  have e5 : splitLastSub ".git".data ('/' :: (org ++ '/' :: (repo ++ ".git".data)))
      = some ('/' :: (org ++ '/' :: repo), []) := by
    have hmid : ('/' : Char) :: (org ++ '/' :: (repo ++ ".git".data))
        = ('/' :: (org ++ '/' :: repo)) ++ ".git".data := by
      simp
    rw [hmid]
    exact splitLastSub_append_self _ _ (by decide)
  have e6 : stripChars ['/'] ('/' :: (org ++ '/' :: repo)) = org ++ '/' :: repo :=
    stripChars_slash_mid org repo ho hr hno hnr
  have e7 : pySplitAll '/' (org ++ '/' :: repo) = [org, repo] := by
    rw [pySplitAll_append _ _ _ ho, pySplitAll_no _ _ hr]
  simp only [parseRemote, e0, e1, e2, e3, e5, e6, e7, schemeOfString, if_true,
    Bool.false_eq_true, if_false, Bool.and_self, eq_self_iff_true]
  rfl

lemma ParseURL_https (host org repo : String)
    (hh : '/' ∉ host.data) (ho : '/' ∉ org.data) (hr : '/' ∉ repo.data)
    (hno : org.data ≠ []) (hnr : repo.data ≠ []) :
    RemoteParts.ParseURLToRemoteParts ("https://" ++ host ++ "/" ++ org ++ "/" ++ repo ++ ".git")
      = Except.ok ⟨RemoteScheme.Https, host, org, repo⟩ := by
  have hd : ("https://" ++ host ++ "/" ++ org ++ "/" ++ repo ++ ".git").data
      = "https://".data ++ (host.data ++ '/' :: (org.data ++ '/' :: (repo.data ++ ".git".data))) := by
    simp only [String.data_append, List.append_assoc]
    rfl
  unfold RemoteParts.ParseURLToRemoteParts
  rw [hd, parse_https_core _ _ _ hh ho hr hno hnr]

/-- C6: every git-at style locator whose org carries no colon and no
slash and whose repo carries no colon parses to scheme Git with the
given host, org and repo, the trailing dot-git suffix removed: the
host is what lies between the first at-sign and the last colon, and
org is separated from the repo name at the first slash. -/
theorem claim_C6_ssh_parse (host org repo : String)
    (h1 : ':' ∉ org.data) (h2 : ':' ∉ repo.data) (h3 : '/' ∉ org.data) :
    RemoteParts.ParseURLToRemoteParts ("git@" ++ host ++ ":" ++ org ++ "/" ++ repo ++ ".git")
      = Except.ok ⟨RemoteScheme.Git, host, org, repo⟩ :=
  ParseURL_git_at host org repo h1 h2 h3

/-- Witness for C6: the canonical github SSH shorthand parses to its
parts with no dot-git suffix left on the repo name. -/
theorem claim_C6_witness :
    RemoteParts.ParseURLToRemoteParts ("git@" ++ "github.com" ++ ":" ++ "spacetelescope" ++ "/"
        ++ "dat_pyinthesky" ++ ".git")
      = Except.ok ⟨RemoteScheme.Git, "github.com", "spacetelescope", "dat_pyinthesky"⟩ :=
  claim_C6_ssh_parse "github.com" "spacetelescope" "dat_pyinthesky"
    (by decide) (by decide) (by decide)

/-- C5: is_match succeeds with true exactly when the host,
organization, and repo name parsed from the url all equal the parts of
the remote, the scheme playing no role in the comparison; in
particular it is reflexive: a remote carrying any scheme matches both
the SSH shorthand and the HTTPS clone spelling of its own host, org
and repo. -/
theorem claim_C5_is_match :
    (∀ (rem : GitConfigRemote) (url : String) (parts : RemoteParts),
        RemoteParts.ParseURLToRemoteParts url = Except.ok parts →
        (rem.is_match url = Except.ok true ↔
          (parts.netloc = rem.parts.netloc ∧ parts.org = rem.parts.org ∧
            parts.name = rem.parts.name))) ∧
    (∀ (nm fetch host org repo : String) (sch : RemoteScheme),
        ':' ∉ org.data → ':' ∉ repo.data → '/' ∉ org.data →
        GitConfigRemote.is_match ⟨nm, ⟨sch, host, org, repo⟩, fetch⟩
          ("git@" ++ host ++ ":" ++ org ++ "/" ++ repo ++ ".git") = Except.ok true) ∧
    (∀ (nm fetch host org repo : String) (sch : RemoteScheme),
        '/' ∉ host.data → '/' ∉ org.data → '/' ∉ repo.data →
        org.data ≠ [] → repo.data ≠ [] →
        GitConfigRemote.is_match ⟨nm, ⟨sch, host, org, repo⟩, fetch⟩
          ("https://" ++ host ++ "/" ++ org ++ "/" ++ repo ++ ".git") = Except.ok true) := by
  refine ⟨?_, ?_, ?_⟩
  · intro rem url parts hp
    unfold GitConfigRemote.is_match
    rw [hp]
    constructor
    · intro hm
      have hb : (parts.netloc == rem.parts.netloc && parts.org == rem.parts.org &&
          parts.name == rem.parts.name) = true := by
        simpa using hm
      simp only [Bool.and_eq_true, beq_iff_eq] at hb
      exact ⟨hb.1.1, hb.1.2, hb.2⟩
    · rintro ⟨e1, e2, e3⟩
      show Except.ok (parts.netloc == rem.parts.netloc && parts.org == rem.parts.org &&
          parts.name == rem.parts.name) = Except.ok true
      rw [e1, e2, e3]
      simp
  · intro nm fetch host org repo sch hx1 hx2 hx3
    unfold GitConfigRemote.is_match
    rw [ParseURL_git_at host org repo hx1 hx2 hx3]
    simp
  · intro nm fetch host org repo sch hx1 hx2 hx3 hx4 hx5
    unfold GitConfigRemote.is_match
    rw [ParseURL_https host org repo hx1 hx2 hx3 hx4 hx5]
    simp

/-- Witness for C5: a remote configured with the HTTPS scheme matches
both spellings of its own coordinates, and the match criterion at a
parsed input is the equality of the three compared components. -/
theorem claim_C5_witness :
    (GitConfigRemote.is_match ⟨"origin", ⟨RemoteScheme.Https, "github.com", "a", "b"⟩, "f"⟩
        "git@github.com:a/b.git" = Except.ok true ↔
      (("github.com" : String) = "github.com" ∧ ("a" : String) = "a" ∧ ("b" : String) = "b")) ∧
    GitConfigRemote.is_match ⟨"origin", ⟨RemoteScheme.Https, "github.com", "a", "b"⟩, "f"⟩
      ("git@" ++ "github.com" ++ ":" ++ "a" ++ "/" ++ "b" ++ ".git") = Except.ok true ∧
    GitConfigRemote.is_match ⟨"origin", ⟨RemoteScheme.Git, "github.com", "a", "b"⟩, "f"⟩
      ("https://" ++ "github.com" ++ "/" ++ "a" ++ "/" ++ "b" ++ ".git") = Except.ok true :=
  ⟨claim_C5_is_match.1 ⟨"origin", ⟨RemoteScheme.Https, "github.com", "a", "b"⟩, "f"⟩
      "git@github.com:a/b.git" ⟨RemoteScheme.Git, "github.com", "a", "b"⟩ rfl,
    claim_C5_is_match.2.1 "origin" "f" "github.com" "a" "b" RemoteScheme.Https
      (by decide) (by decide) (by decide),
    claim_C5_is_match.2.2 "origin" "f" "github.com" "a" "b" RemoteScheme.Git
      (by decide) (by decide) (by decide) (by decide) (by decide)⟩

end NBC
